import Mathlib

/-!
Verification of the log2duck log-line parsing and enrichment core
(src/lib.rs) against its natural-language specification.

The Rust source is shallowly embedded: strings are lists of characters
(log lines are ASCII, so Rust's byte offsets coincide with character
offsets), machine integers are `Nat`/`Int` with explicit bounds where the
source checks them, fallible operations return `Option`, and a Rust panic
(an out-of-bounds slice `line[start..]`) is an explicit `panic` outcome.
Library functions the source calls (std's IP and integer parsers, chrono's
`parse_from_str`, the url crate's parse/join) are modelled from their
documented behaviour for the inputs this grammar can produce.
-/

set_option maxHeartbeats 4000000

namespace Log2Duck

/-- Strings modelled as lists of characters. -/
abbrev Str := List Char

/-- Does the first list occur at the head of the second? (`str::starts_with`.) -/
def leadMatch : Str → Str → Bool
  | [], _ => true
  | _ :: _, [] => false
  | p :: ps, c :: cs => if p = c then leadMatch ps cs else false

/-- Index of the first occurrence of a substring (`str::find` for a string pattern). -/
def subIndexOf (pat : Str) : Str → Option Nat
  | [] => if pat = [] then some 0 else none
  | c :: cs =>
      if leadMatch pat (c :: cs) then some 0
      else (subIndexOf pat cs).map (· + 1)

/-- Index of the first occurrence of a character (`str::find` for a char pattern). -/
def charIndexOf (ch : Char) : Str → Option Nat
  | [] => none
  | c :: cs => if c = ch then some 0 else (charIndexOf ch cs).map (· + 1)

/-- `str::contains` for a substring pattern. -/
def containsSub (s pat : Str) : Bool := (subIndexOf pat s).isSome

/-- Split on a character; like Rust's `str::split`, keeps empty pieces. -/
def splitOnChar (ch : Char) : Str → List Str
  | [] => [[]]
  | c :: cs =>
      let rest := splitOnChar ch cs
      if c = ch then [] :: rest
      else
        match rest with
        | r :: rs => (c :: r) :: rs
        | [] => [[c]]

/-- ASCII lowercase of a string (`str::to_lowercase` on ASCII input). -/
def toLowerStr (s : Str) : Str := s.map Char.toLower

/-- Index of the last occurrence of a character. -/
def lastIndexOf (ch : Char) (s : Str) : Option Nat :=
  match charIndexOf ch s.reverse with
  | some i => some (s.length - 1 - i)
  | none => none

/-- Numeric value of a digit string (valid only when all characters are digits). -/
def digitsVal (s : Str) : Nat := s.foldl (fun a c => a * 10 + (c.toNat - 48)) 0

/-- Split a string at the first occurrence of a character: the part before,
and (when the character occurs) the part after it. -/
def splitFirst (ch : Char) (s : Str) : Str × Option Str :=
  match charIndexOf ch s with
  | some i => (s.take i, some (s.drop (i + 1)))
  | none => (s, none)

/-- Rust's `FromStr` for unsigned integers (used via `str::parse` for `u16`
and `usize`): an optional leading plus sign, then one or more digits, with
the value within the type's bound. -/
def parseRustUInt (bound : Nat) (s : Str) : Option Nat :=
  let t := match s with
    | '+' :: rest => rest
    | _ => s
  if t ≠ [] ∧ t.all Char.isDigit then
    let v := digitsVal t
    if v ≤ bound then some v else none
  else none

/-- Largest `usize` value (the targets are 64-bit). -/
def usizeMax : Nat := 18446744073709551615

/-- One octet of an IPv4 address as `core::net` parses it: one to three
digits, no leading zero (except the octet `0` itself), value at most 255. -/
def ipv4Octet (s : Str) : Option Nat :=
  if s = [] then none
  else if ¬ s.all Char.isDigit then none
  else if 1 < s.length ∧ s.head? = some '0' then none
  else if 3 < s.length then none
  else
    let v := digitsVal s
    if v ≤ 255 then some v else none

/-- Recogniser for IPv4 addresses (`Ipv4Addr::from_str`). -/
def isIPv4 (s : Str) : Bool :=
  match (splitOnChar '.' s).map ipv4Octet with
  | [some _, some _, some _, some _] => true
  | _ => false

/-- One hexadecimal group of an IPv6 address: one to four hex digits. -/
def isHexGroup (s : Str) : Bool :=
  s ≠ [] && s.length ≤ 4 &&
    s.all (fun c => c.isDigit || ( 'a' ≤ c && c ≤ 'f') || ( 'A' ≤ c && c ≤ 'F'))

/-- Count the 16-bit slots of a group list, allowing an embedded IPv4
address (two slots) only in the final position. -/
def v6Groups : List Str → Option Nat
  | [] => some 0
  | [g] => if isHexGroup g then some 1 else if isIPv4 g then some 2 else none
  | g :: rest => if isHexGroup g then (v6Groups rest).map (· + 1) else none

/-- Recogniser for IPv6 addresses (`Ipv6Addr::from_str`): eight groups, or a
single `::` standing for one or more zero groups. -/
def isIPv6 (s : Str) : Bool :=
  match subIndexOf [':', ':'] s with
  | none =>
      match v6Groups (splitOnChar ':' s) with
      | some 8 => true
      | _ => false
  | some i =>
      let head := s.take i
      let tail := s.drop (i + 2)
      if (subIndexOf [':', ':'] tail).isSome then false
      else
        let hg := if head = [] then [] else splitOnChar ':' head
        let tg := if tail = [] then [] else splitOnChar ':' tail
        match v6Groups hg, v6Groups tg with
        | some a, some b => hg.all isHexGroup && decide (a + b < 8)
        | _, _ => false

/-- `IpAddr::from_str`: an IPv4 or an IPv6 address. -/
def isIpAddr (s : Str) : Bool := isIPv4 s || isIPv6 s

/-- Month abbreviations accepted by chrono's `%b` (case-insensitive). -/
def monthAbbrevs : List Str :=
  ["jan".data, "feb".data, "mar".data, "apr".data, "may".data, "jun".data,
   "jul".data, "aug".data, "sep".data, "oct".data, "nov".data, "dec".data]

/-- Full month names, also accepted by chrono's `%b`. -/
def monthFulls : List Str :=
  ["january".data, "february".data, "march".data, "april".data, "may".data,
   "june".data, "july".data, "august".data, "september".data, "october".data,
   "november".data, "december".data]

/-- Position of a string in a list. -/
def posIn (x : Str) : List Str → Option Nat
  | [] => none
  | y :: ys => if x = y then some 0 else (posIn x ys).map (· + 1)

/-- Month number (1-12) from a `%b` month name, case-insensitively. -/
def monthNum (s : Str) : Option Nat :=
  match posIn (toLowerStr s) monthAbbrevs with
  | some i => some (i + 1)
  | none => (posIn (toLowerStr s) monthFulls).map (· + 1)

/-- Leap-year rule of the proleptic Gregorian calendar. -/
def isLeap (y : Nat) : Bool := (y % 4 = 0 && y % 100 ≠ 0) || y % 400 = 0

/-- Number of days in a month. -/
def daysInMonth (y m : Nat) : Nat :=
  match m with
  | 1 => 31
  | 2 => if isLeap y then 29 else 28
  | 3 => 31
  | 4 => 30
  | 5 => 31
  | 6 => 30
  | 7 => 31
  | 8 => 31
  | 9 => 30
  | 10 => 31
  | 11 => 30
  | 12 => 31
  | _ => 0

/-- Days from 1970-01-01 to the given civil date (valid for years ≥ 1,
which the datetime parser below guarantees). -/
def daysFromCivil (y m d : Nat) : Int :=
  let yy := if m ≤ 2 then y - 1 else y
  let era := yy / 400
  let yoe := yy % 400
  let mp := (m + 9) % 12
  let doy := (153 * mp + 2) / 5 + d - 1
  let doe := yoe * 365 + yoe / 4 - yoe / 100 + doy
  ((era * 146097 + doe : Nat) : Int) - 719468

/-- Take a leading run of digits. -/
def takeDigits (s : Str) : Str × Str := (s.takeWhile Char.isDigit, s.dropWhile Char.isDigit)

/-- Take a leading run of letters. -/
def takeAlpha (s : Str) : Str × Str := (s.takeWhile Char.isAlpha, s.dropWhile Char.isAlpha)

/-- Expect one specific character and consume it. -/
def expectC (c : Char) : Str → Option Str
  | x :: xs => if x = c then some xs else none
  | [] => none

/-- Exactly two digits. -/
def twoDigits : Str → Option (Nat × Str)
  | a :: b :: rest =>
      if a.isDigit && b.isDigit then some (digitsVal [a, b], rest) else none
  | _ => none

/-- chrono's `DateTime::parse_from_str` with format `%d/%b/%Y:%H:%M:%S %z`,
followed by conversion to UTC and `timestamp_micros`: the result is the
number of UTC microseconds since the epoch. Fields are range-checked the
way chrono checks them (day valid for the month, hour below 24, minute and
second below 60, offset hours below 24 and minutes below 60), and the whole
input must be consumed. -/
def parseDtMicros (s : Str) : Option Int := do
  let (dayS, r1) := takeDigits s
  if dayS = [] ∨ 2 < dayS.length then none else do
  let r2 ← expectC '/' r1
  let (monS, r3) := takeAlpha r2
  let m ← monthNum monS
  let r4 ← expectC '/' r3
  let (yearS, r5) := takeDigits r4
  if yearS.length ≠ 4 then none else do
  let r6 ← expectC ':' r5
  let (hS, r7) := takeDigits r6
  if hS = [] ∨ 2 < hS.length then none else do
  let r8 ← expectC ':' r7
  let (miS, r9) := takeDigits r8
  if miS = [] ∨ 2 < miS.length then none else do
  let r10 ← expectC ':' r9
  let (seS, r11) := takeDigits r10
  if seS = [] ∨ 2 < seS.length then none else do
  let r12 ← expectC ' ' r11
  let (sgn, r13) ← (match r12 with
    | '+' :: xs => some ((1 : Int), xs)
    | '-' :: xs => some ((-1 : Int), xs)
    | _ => none)
  let (oh, r14) ← twoDigits r13
  let r15 := match r14 with
    | ':' :: xs => xs
    | _ => r14
  let (om, r16) ← twoDigits r15
  if r16 ≠ [] then none else do
  let d := digitsVal dayS
  let y := digitsVal yearS
  let h := digitsVal hS
  let mi := digitsVal miS
  let se := digitsVal seS
  if y = 0 ∨ d = 0 ∨ daysInMonth y m < d then none else do
  if 23 < h ∨ 59 < mi ∨ 59 < se then none else do
  if 23 < oh ∨ 59 < om then none else do
  let localSecs : Int := daysFromCivil y m d * 86400 + ((h * 3600 + mi * 60 + se : Nat) : Int)
  let offSecs : Int := sgn * ((oh * 3600 + om * 60 : Nat) : Int)
  some ((localSecs - offSecs) * 1000000)

/-- The url crate's `Url`, modelled by its observable components: scheme,
host, port (with the scheme's default port elided), serialised path, query
and fragment. Percent-encoding is not re-applied during serialisation; the
grammar's delimiters keep the characters exercised here encoding-free. -/
structure UrlM where
  scheme : Str
  host : Option Str
  port : Option Nat
  path : Str
  query : Option Str
  fragment : Option Str
deriving DecidableEq, Repr

/-- The WHATWG special schemes. -/
def specialSchemes : List Str :=
  ["http".data, "https".data, "ws".data, "wss".data, "ftp".data, "file".data]

/-- Default port of a special scheme. -/
def defaultPortN (sch : Str) : Nat :=
  if sch = "http".data then 80
  else if sch = "https".data then 443
  else if sch = "ws".data then 80
  else if sch = "wss".data then 443
  else if sch = "ftp".data then 21
  else 0

/-- A character allowed in a URL scheme after the first letter. -/
def isSchemeChar (c : Char) : Bool := c.isAlphanum || c == '+' || c == '-' || c == '.'

/-- Split off a leading `scheme:`; the scheme must start with a letter.
Returns the lowercased scheme and the remainder after the colon. -/
def schemeSplit (s : Str) : Option (Str × Str) :=
  match s with
  | c :: _ =>
      if c.isAlpha then
        match s.dropWhile isSchemeChar with
        | ':' :: r => some (toLowerStr (s.takeWhile isSchemeChar), r)
        | _ => none
      else none
  | [] => none

/-- Take characters up to the first of the given stop characters. -/
def takeUntilAny (stop : List Char) (s : Str) : Str × Str :=
  (s.takeWhile (fun c => ¬ stop.contains c), s.dropWhile (fun c => ¬ stop.contains c))

/-- Split a `host[:port]` string (a bracketed IPv6 host keeps its brackets,
as `Url::host_str` serialises it). -/
def hostPortSplit (hp : Str) : Str × Option Str :=
  match hp with
  | '[' :: _ =>
      match charIndexOf ']' hp with
      | some i =>
          let host := hp.take (i + 1)
          match hp.drop (i + 1) with
          | ':' :: p => (host, some p)
          | _ => (host, none)
      | none => (hp, none)
  | _ => splitFirst ':' hp

/-- Validate a port string: empty means the default port; otherwise digits
below 65536, with the scheme's default elided (WHATWG port state). -/
def portOf (sch : Str) (p : Str) : Option (Option Nat) :=
  if p = [] then some none
  else if p.all Char.isDigit then
    let v := digitsVal p
    if v < 65536 then
      if v = defaultPortN sch then some none else some (some v)
    else none
  else none

/-- Parse an authority (after any `//`): strips userinfo, splits host and
port. Returns host, port and the remainder (path, query, fragment). An
empty host fails except for the `file` scheme, where it is absent. -/
def parseAuthority (sch : Str) (s : Str) : Option (Option Str × Option Nat × Str) := do
  let (auth, rest) := takeUntilAny ['/', '?', '#'] s
  let hostport := match lastIndexOf '@' auth with
    | some i => auth.drop (i + 1)
    | none => auth
  let (hostRaw, portRaw) := hostPortSplit hostport
  let port ← portOf sch (portRaw.getD [])
  if hostRaw = [] then
    if sch = "file".data then some (none, port, rest) else none
  else
    some (some (toLowerStr hostRaw), port, rest)

/-- WHATWG path-state dot-segment handling over a segment list: `.` is
dropped, `..` pops, and either as the final segment leaves a trailing
empty segment. Other segments (including empty ones) are preserved. -/
def removeDotSegs : List Str → List Str → List Str
  | [], out => out
  | [s], out =>
      if s = ['.'] then out ++ [[]]
      else if s = ['.', '.'] then out.dropLast ++ [[]]
      else out ++ [s]
  | s :: rest, out =>
      if s = ['.'] then removeDotSegs rest out
      else if s = ['.', '.'] then removeDotSegs rest out.dropLast
      else removeDotSegs rest (out ++ [s])

/-- Join segments with slashes. -/
def joinSegs : List Str → Str
  | [] => []
  | [x] => x
  | x :: xs => x ++ '/' :: joinSegs xs

/-- Normalise an absolute path (empty or starting with `/`): dot segments
are resolved, empty segments kept, and the empty path serialises as `/`. -/
def normPathAbs (p : Str) : Str :=
  match p with
  | [] => ['/']
  | _ => '/' :: joinSegs (removeDotSegs ((splitOnChar '/' p).drop 1) [])

/-- `Url::parse` of an absolute URL string. A string without a scheme is a
`RelativeUrlWithoutBase` error (`none`). Special schemes take an authority
(after skipping any run of slashes, per the special-authority-slashes
state); other schemes keep an opaque path and no host. -/
def urlParse (s : Str) : Option UrlM := do
  let (sch, rest) ← schemeSplit s
  if specialSchemes.contains sch then do
    let rest1 := rest.dropWhile (fun c => c == '/' || c == '\\')
    let (host, port, rest2) ← parseAuthority sch rest1
    let (beforeFrag, frag) := splitFirst '#' rest2
    let (pathPart, q) := splitFirst '?' beforeFrag
    some { scheme := sch, host := host, port := port, path := normPathAbs pathPart,
           query := q, fragment := frag }
  else do
    let (beforeFrag, frag) := splitFirst '#' rest
    let (pathPart, q) := splitFirst '?' beforeFrag
    some { scheme := sch, host := none, port := none, path := pathPart,
           query := q, fragment := frag }

/-- Resolve a relative reference against a base URL (WHATWG relative
state). A base with an opaque path (non-special scheme) cannot be a base. -/
def urlJoinRel (base : UrlM) (r : Str) : Option UrlM :=
  if ¬ specialSchemes.contains base.scheme then none
  else if leadMatch ['/', '/'] r then do
    let (host, port, rest2) ← parseAuthority base.scheme (r.drop 2)
    let (beforeFrag, frag) := splitFirst '#' rest2
    let (pathPart, q) := splitFirst '?' beforeFrag
    some { scheme := base.scheme, host := host, port := port,
           path := normPathAbs pathPart, query := q, fragment := frag }
  else
    match r with
    | [] => some { base with fragment := none }
    | '#' :: f => some { base with fragment := some f }
    | '?' :: _ =>
        let (beforeFrag, frag) := splitFirst '#' r
        some { base with query := some (beforeFrag.drop 1), fragment := frag }
    | '/' :: _ =>
        let (beforeFrag, frag) := splitFirst '#' r
        let (pathPart, q) := splitFirst '?' beforeFrag
        some { base with path := normPathAbs pathPart, query := q, fragment := frag }
    | _ =>
        let (beforeFrag, frag) := splitFirst '#' r
        let (pathPart, q) := splitFirst '?' beforeFrag
        let keep := (lastIndexOf '/' base.path).getD 0
        let merged := base.path.take (keep + 1) ++ pathPart
        some { base with path := normPathAbs merged, query := q, fragment := frag }

/-- `Url::join`: an input with its own scheme is parsed absolutely, except
that a special scheme equal to the base's without a following `//` is
treated as a relative reference (WHATWG special-relative-or-authority
state); an input without a scheme is resolved against the base. -/
def urlJoin (base : UrlM) (input : Str) : Option UrlM :=
  match schemeSplit input with
  | some (sch, rest) =>
      if sch = base.scheme ∧ specialSchemes.contains sch ∧ ¬ leadMatch ['/', '/'] rest then
        urlJoinRel base rest
      else urlParse input
  | none => urlJoinRel base input

/-- The url crate's `Origin`: a (scheme, host, port) tuple for special
schemes other than `file`, and an opaque origin otherwise. -/
inductive OriginM where
  | tuple (scheme : Str) (host : Str) (port : Nat)
  | nonTuple
deriving DecidableEq, Repr

/-- `Url::origin`. -/
def urlOrigin (u : UrlM) : OriginM :=
  if specialSchemes.contains u.scheme ∧ u.scheme ≠ "file".data then
    OriginM.tuple u.scheme (u.host.getD []) (u.port.getD (defaultPortN u.scheme))
  else OriginM.nonTuple

/-- Value of a hex digit. -/
def hexVal (c : Char) : Option Nat :=
  if c.isDigit then some (c.toNat - 48)
  else if 'a' ≤ c ∧ c ≤ 'f' then some (c.toNat - 87)
  else if 'A' ≤ c ∧ c ≤ 'F' then some (c.toNat - 55)
  else none

/-- Percent- and plus-decoding as `form_urlencoded` applies it to each key
and value (ASCII bytes; multi-byte UTF-8 sequences do not arise here). -/
def percentDecode : Str → Str
  | [] => []
  | '%' :: a :: b :: rest =>
      match hexVal a, hexVal b with
      | some x, some y =>
          if 16 * x + y < 128 then Char.ofNat (16 * x + y) :: percentDecode rest
          else '%' :: a :: b :: percentDecode rest
      | _, _ => '%' :: percentDecode (a :: b :: rest)
  | '+' :: rest => ' ' :: percentDecode rest
  | c :: rest => c :: percentDecode rest

/-- A `HashMap<String, String>` modelled as an association list; insertion
replaces the value of an existing key (last occurrence wins). -/
abbrev HMap := List (Str × Str)

/-- `HashMap::insert` (up to iteration order, which map equality ignores). -/
def hmInsert (m : HMap) (k v : Str) : HMap :=
  match m with
  | [] => [(k, v)]
  | (k0, v0) :: rest => if k0 = k then (k0, v) :: rest else (k0, v0) :: hmInsert rest k v

/-- `Url::query_pairs().into_owned().collect::<HashMap<_, _>>()`: split the
query on `&` skipping empty pieces, split each pair at the first `=`, and
decode keys and values. -/
def queryPairsM (q : Str) : HMap :=
  ((splitOnChar '&' q).filter (· ≠ [])).foldl
    (fun m p =>
      let (k, vO) := splitFirst '=' p
      hmInsert m (percentDecode k) (percentDecode (vO.getD [])))
    []

/-- `Path::file_name`: the last normal component, ignoring trailing slashes
and `.` components; absent when the path ends in `..` or has no component. -/
def fileNameOf (path : Str) : Option Str :=
  let comps := (splitOnChar '/' path).filter (fun c => c ≠ [] ∧ c ≠ ['.'])
  match comps.getLast? with
  | some c => if c = ['.', '.'] then none else some c
  | none => none

/-- `Path::extension` on a file name: the part after the last dot, absent
when there is no dot or the only dot is the leading one. -/
def extSplit (file : Str) : Option Str :=
  match lastIndexOf '.' file with
  | none => none
  | some 0 => none
  | some i => some (file.drop (i + 1))

/-- The source's extension computation: `Path::new(&path).extension()`
lowercased. -/
def pathExtension (path : Str) : Option Str :=
  ((fileNameOf path).bind extSplit).map toLowerStr

/-- The source's slash-collapsing loop:
`while fullpath.starts_with("//") { fullpath = fullpath.replacen("//", "/", 1) }`.
Under the guard the first `//` occurrence is the leading one, so each
`replacen` drops one leading slash. Only a LEADING run of doubled slashes
is touched. -/
def collapseSlashes (s : Str) : Str :=
  match s with
  | '/' :: '/' :: rest => '/' :: rest.dropWhile (fun c => c == '/')
  | t => t

/-- The nine HTTP methods (`enum HttpMethod`). -/
inductive HttpMethod where
  | GET
  | POST
  | PUT
  | DELETE
  | HEAD
  | OPTIONS
  | CONNECT
  | TRACE
  | PATCH
deriving DecidableEq, Repr

/-- `HttpMethod::new`: `Err(ParseError)` is modelled as `none`. -/
def HttpMethod.new (method : Str) : Option HttpMethod :=
  if method = "GET".data then some HttpMethod.GET
  else if method = "POST".data then some HttpMethod.POST
  else if method = "PUT".data then some HttpMethod.PUT
  else if method = "DELETE".data then some HttpMethod.DELETE
  else if method = "HEAD".data then some HttpMethod.HEAD
  else if method = "OPTIONS".data then some HttpMethod.OPTIONS
  else if method = "CONNECT".data then some HttpMethod.CONNECT
  else if method = "TRACE".data then some HttpMethod.TRACE
  else if method = "PATCH".data then some HttpMethod.PATCH
  else none

/-- `HttpMethod::to_string`. -/
def HttpMethod.toString : HttpMethod → Str
  | HttpMethod.GET => "GET".data
  | HttpMethod.POST => "POST".data
  | HttpMethod.PUT => "PUT".data
  | HttpMethod.DELETE => "DELETE".data
  | HttpMethod.HEAD => "HEAD".data
  | HttpMethod.OPTIONS => "OPTIONS".data
  | HttpMethod.CONNECT => "CONNECT".data
  | HttpMethod.TRACE => "TRACE".data
  | HttpMethod.PATCH => "PATCH".data

/-- The nine method literals. -/
def methodLits : List Str :=
  ["GET".data, "POST".data, "PUT".data, "DELETE".data, "HEAD".data,
   "OPTIONS".data, "CONNECT".data, "TRACE".data, "PATCH".data]

/-- The four HTTP versions (`enum HttpVersion`). -/
inductive HttpVersion where
  | HTTP10
  | HTTP11
  | HTTP20
  | HTTP30
deriving DecidableEq, Repr

/-- `HttpVersion::new`. -/
def HttpVersion.new (version : Str) : Option HttpVersion :=
  if version = "HTTP/1.0".data then some HttpVersion.HTTP10
  else if version = "HTTP/1.1".data then some HttpVersion.HTTP11
  else if version = "HTTP/2.0".data then some HttpVersion.HTTP20
  else if version = "HTTP/3.0".data then some HttpVersion.HTTP30
  else none

/-- `HttpVersion::to_string`. -/
def HttpVersion.toString : HttpVersion → Str
  | HttpVersion.HTTP10 => "HTTP/1.0".data
  | HttpVersion.HTTP11 => "HTTP/1.1".data
  | HttpVersion.HTTP20 => "HTTP/2.0".data
  | HttpVersion.HTTP30 => "HTTP/3.0".data

/-- The four version literals. -/
def versionLits : List Str :=
  ["HTTP/1.0".data, "HTTP/1.1".data, "HTTP/2.0".data, "HTTP/3.0".data]

/-- `enum Patt`: a delimiter pattern, a character or a literal substring. -/
inductive Patt where
  | ch (c : Char)
  | str (s : Str)

/-- Outcome of the Field Cursor: the slice and the match offset, a
not-found `ParseError`, or a panic from slicing past the end of the line. -/
inductive FindRes where
  | panic
  | notFound
  | found (s : Str) (pos : Nat)
deriving DecidableEq, Repr

/-- `find(start, line, pattern)`: Rust's `line[start..]` panics when
`start` exceeds the line length; otherwise the first pattern occurrence
yields the slice strictly between `start` and the match, plus the match's
absolute offset. -/
def find (start : Nat) (line : Str) (pattern : Patt) : FindRes :=
  if line.length < start then FindRes.panic
  else
    let pos := match pattern with
      | Patt.ch c => charIndexOf c (line.drop start)
      | Patt.str s => subIndexOf s (line.drop start)
    match pos with
    | some p => FindRes.found ((line.drop start).take p) (start + p)
    | none => FindRes.notFound

/-- Outcome of a parse step: success, a classified `LogError` with its
reason string, the filtered `LogError` (`is_filtered = true`), or a panic.
The `LogError`'s `line` field always holds the input line and is carried
implicitly. -/
inductive PRes (α : Type) where
  | ok (a : α)
  | err (reason : Str)
  | filtered
  | panic
deriving DecidableEq, Repr

/-- Chain a parse step (the `?` operator on `Result`). -/
def pbind {α β : Type} : PRes α → (α → PRes β) → PRes β
  | PRes.ok a, f => f a
  | PRes.err r, _ => PRes.err r
  | PRes.filtered, _ => PRes.filtered
  | PRes.panic, _ => PRes.panic

/-- `find(...).map_err(|_| LogError::new(&line, reason))?`. -/
def toRes (r : FindRes) (reason : Str) : PRes (Str × Nat) :=
  match r with
  | FindRes.found s p => PRes.ok (s, p)
  | FindRes.notFound => PRes.err reason
  | FindRes.panic => PRes.panic

/-- `option.ok_or(...)`-style classification of a fallible library call. -/
def toResO {α : Type} (o : Option α) (reason : Str) : PRes α :=
  match o with
  | some a => PRes.ok a
  | none => PRes.err reason

/-- Successful value of a parse outcome, if any. -/
def presOk {α : Type} : PRes α → Option α
  | PRes.ok a => some a
  | _ => none

/-- `struct Agent` (version components as `u16`, modelled as `Nat`). -/
structure Agent where
  browser : Option Str
  browser_major : Option Nat
  browser_minor : Option Nat
  browser_patch : Option Nat
  browser_patch_minor : Option Nat
  os : Option Str
  os_major : Option Nat
  os_minor : Option Nat
  os_patch : Option Nat
  os_patch_minor : Option Nat
  device : Option Str
  brand : Option Str
  model : Option Str
deriving DecidableEq, Repr

/-- `Agent::new`: every field absent. -/
def Agent.new : Agent :=
  { browser := none, browser_major := none, browser_minor := none,
    browser_patch := none, browser_patch_minor := none,
    os := none, os_major := none, os_minor := none, os_patch := none,
    os_patch_minor := none, device := none, brand := none, model := none }

/-- `struct GeoLocation`. -/
structure GeoLocation where
  country : Option Str
  continent : Option Str
  asn : Option Str
  as_name : Option Str
  as_domain : Option Str
deriving DecidableEq, Repr

/-- `GeoLocation::new`: every field absent. -/
def GeoLocation.new : GeoLocation :=
  { country := none, continent := none, asn := none, as_name := none, as_domain := none }

/-- `struct IpInfo`: one record of the geolocation database. -/
structure IpInfo where
  continent : Option Str
  country : Option Str
  asn : Option Str
  as_name : Option Str
  as_domain : Option Str
deriving DecidableEq, Repr

/-- `struct ParserServices`. The injected user-agent decomposition service
(`agents_parser.extract` composed with `Agent::from`) and the geolocation
database (`ip_reader.lookup`, whose `Err` cases — lookup miss or a record
`serde` cannot deserialise — are `none`) are opaque function fields, as
the spec treats them. `calls` is ghost instrumentation recording each
invocation of the decomposition service, to state the memoisation claims;
it does not influence any computed value. IP addresses are carried in
their textual form, the form `get_geolocation` keys its cache by. -/
structure ParserServices where
  dec : Str → Agent
  geoLookup : Str → Option IpInfo
  agents : List (Str × Agent)
  geolocations : List (Str × GeoLocation)
  calls : List Str

/-- `HashMap::get` on an association list. -/
def lookupA {α : Type} (k : Str) : List (Str × α) → Option α
  | [] => none
  | (k0, v) :: rest => if k0 = k then some v else lookupA k rest

/-- The Mozlila special case applied by `get_agent` after the
decomposition service returns. -/
def applyOverride (ua : Str) (a : Agent) : Agent :=
  if containsSub ua "Mozlila".data then { a with device := some "Spider".data } else a

/-- `ParserServices::get_agent`: on a cache miss, invoke the decomposition
service, apply the Mozlila override, and cache the result (the source
checks `contains_key` before `insert`, so insertion is an append of a
fresh key). Returns the agent and the updated services. -/
def ParserServices.get_agent (svc : ParserServices) (user_agent : Str) :
    Agent × ParserServices :=
  match lookupA user_agent svc.agents with
  | some a => (a, svc)
  | none =>
      let agent := applyOverride user_agent (svc.dec user_agent)
      (agent,
       { svc with
           agents := svc.agents ++ [(user_agent, agent)]
           calls := svc.calls ++ [user_agent] })

/-- `ParserServices::parse_geolocation`: start from `GeoLocation::new` and
copy the record's fields only when the lookup succeeds. -/
def geoCompute (lookup : Str → Option IpInfo) (ip : Str) : GeoLocation :=
  match lookup ip with
  | none => GeoLocation.new
  | some info =>
      { country := info.country, continent := info.continent, asn := info.asn,
        as_name := info.as_name, as_domain := info.as_domain }

/-- `ParserServices::get_geolocation`: memoised `parse_geolocation`, keyed
by the IP's string form. -/
def ParserServices.get_geolocation (svc : ParserServices) (ip : Str) :
    GeoLocation × ParserServices :=
  match lookupA ip svc.geolocations with
  | some g => (g, svc)
  | none =>
      let g := geoCompute svc.geoLookup ip
      (g, { svc with geolocations := svc.geolocations ++ [(ip, g)] })

/-- `ParserServices::new` with the two opaque services injected: both
caches start empty. -/
def ParserServices.init (dec : Str → Agent) (geo : Str → Option IpInfo) :
    ParserServices :=
  { dec := dec, geoLookup := geo, agents := [], geolocations := [], calls := [] }

/-- One cache request in a run (the only operations that touch the
caches; a `LogEntry::parse` call performs at most one of each). -/
inductive Req where
  | agentReq (ua : Str)
  | geoReq (ip : Str)

/-- Run a sequence of cache requests, threading the services state. -/
def runReqs (svc : ParserServices) : List Req → ParserServices
  | [] => svc
  | Req.agentReq ua :: rest => runReqs (svc.get_agent ua).2 rest
  | Req.geoReq ip :: rest => runReqs (svc.get_geolocation ip).2 rest

/-- `struct ParseConfig`. -/
structure ParseConfig where
  timestamp : Int
  origin : UrlM
deriving DecidableEq, Repr

/-- `ParseConfig::new`: `Url::parse(origin).unwrap()` panics when the
origin does not parse; the panic is modelled as `none`. -/
def ParseConfig.new (timestamp : Int) (origin : Str) : Option ParseConfig :=
  (urlParse origin).map fun u => { timestamp := timestamp, origin := u }

/-- `struct LogEntry` (the timestamp is modelled by its UTC microsecond
value, the only aspect of the `DateTime` the parser computes with). -/
structure LogEntry where
  line : Str
  ip : Str
  identity : Option Str
  user : Option Str
  timestamp : Int
  method : HttpMethod
  path : Str
  extension : Option Str
  query : Option Str
  parsed_query : Option HMap
  http_version : HttpVersion
  status_code : Nat
  size : Nat
  referer : Option UrlM
  referer_origin : Option OriginM
  referer_path : Option Str
  referer_query : Option Str
  referer_parsed_query : Option HMap
  user_agent : Option Str
  browser : Option Str
  browser_major : Option Nat
  browser_minor : Option Nat
  browser_patch : Option Nat
  browser_patch_minor : Option Nat
  os : Option Str
  os_major : Option Nat
  os_minor : Option Nat
  os_patch : Option Nat
  os_patch_minor : Option Nat
  device : Option Str
  brand : Option Str
  model : Option Str
  country : Option Str
  continent : Option Str
  asn : Option Str
  as_name : Option Str
  as_domain : Option Str
deriving DecidableEq, Repr

/-- The fields `LogEntry::parse` computes before consulting the enrichment
services (source lines 160-279). -/
structure PureFields where
  ip : Str
  identity : Option Str
  user : Option Str
  tsMicros : Int
  method : HttpMethod
  path : Str
  extension : Option Str
  query : Option Str
  parsed_query : Option HMap
  http_version : HttpVersion
  status_code : Nat
  size : Nat
  referer : Option UrlM
  referer_origin : Option OriginM
  referer_path : Option Str
  referer_query : Option Str
  referer_parsed_query : Option HMap
  user_agent : Option Str
deriving DecidableEq, Repr

/-- The field-by-field scanning phase of `LogEntry::parse`, statement by
statement: each `find` is chained with the source's reason string, the
watermark short-circuit sits between the timestamp and the request, and
the referer's URL-parse failure is non-fatal. -/
def parseCore (line : Str) (config : ParseConfig) : PRes PureFields :=
  pbind (toRes (find 0 line (Patt.ch ' ')) "IP not found".data) fun ipn =>
  pbind (toResO (if isIpAddr ipn.1 then some ipn.1 else none) "Invalid IP".data) fun ip =>
  pbind (toRes (find (ipn.2 + 1) line (Patt.ch ' ')) "Identity not found".data) fun idn =>
  let identity := if idn.1 = ['-'] then none else some idn.1
  pbind (toRes (find (idn.2 + 1) line (Patt.ch ' ')) "User not found".data) fun usn =>
  let user := if usn.1 = ['-'] then none else some usn.1
  pbind (toRes (find (usn.2 + 2) line (Patt.ch ']')) "Datetime not found".data) fun tsn =>
  pbind (toResO (parseDtMicros tsn.1) "Invalid datetime".data) fun ts =>
  if ts ≤ config.timestamp then PRes.filtered else
  pbind (toRes (find (tsn.2 + 3) line (Patt.ch '"')) "Request not found".data) fun reqn =>
  if reqn.1.length = 0 then PRes.err "Empty request".data else
  pbind (toRes (find (tsn.2 + 3) line (Patt.ch ' ')) "HTTP method not found".data) fun mn =>
  pbind (toResO (HttpMethod.new mn.1) "Invalid HTTP method".data) fun method =>
  pbind (toRes (find (mn.2 + 1) line (Patt.str " HTTP/".data)) "Path not found".data) fun fpn =>
  let fullpath := collapseSlashes fpn.1
  pbind (toResO (urlJoin config.origin fullpath) "Path not valid".data) fun url =>
  if url.host ≠ config.origin.host then PRes.err "Path has a different host".data else
  let path := url.path
  let query := url.query
  let parsed_query := query.map fun _ => queryPairsM (url.query.getD [])
  let extension := pathExtension path
  pbind (toRes (find (fpn.2 + 1) line (Patt.ch '"')) "HTTP version not found".data) fun vn =>
  pbind (toResO (HttpVersion.new vn.1) "Invalid HTTP version".data) fun http_version =>
  pbind (toRes (find (vn.2 + 2) line (Patt.ch ' ')) "Status code not found".data) fun stn =>
  pbind (toResO (parseRustUInt 65535 stn.1) "Invalid status code".data) fun status_code =>
  pbind (toRes (find (stn.2 + 1) line (Patt.ch ' ')) "Size not found".data) fun szn =>
  pbind (toResO (parseRustUInt usizeMax szn.1) "Invalid size".data) fun size =>
  pbind (toRes (find (szn.2 + 2) line (Patt.ch '"')) "Referer not found".data) fun refn =>
  let referer := urlParse refn.1
  let rfields := match referer with
    | none => (none, none, none, none)
    | some u =>
        (some (urlOrigin u), some u.path, u.query,
         u.query.map fun q => queryPairsM q)
  pbind (toRes (find (refn.2 + 3) line (Patt.ch '"')) "User agent not found".data) fun uan =>
  let user_agent := if uan.1 = [] then none else some uan.1
  PRes.ok
    { ip := ip, identity := identity, user := user, tsMicros := ts,
      method := method, path := path, extension := extension, query := query,
      parsed_query := parsed_query, http_version := http_version,
      status_code := status_code, size := size, referer := referer,
      referer_origin := rfields.1, referer_path := rfields.2.1,
      referer_query := rfields.2.2.1, referer_parsed_query := rfields.2.2.2,
      user_agent := user_agent }

/-- `LogEntry::parse`: scan the line, then enrich — the decomposition
service runs only when a user agent is present, the geolocation lookup
always — and assemble the record. Every failure leaves the services as the
failing step found them. -/
def LogEntry.parse (line : Str) (services : ParserServices) (config : ParseConfig) :
    PRes LogEntry × ParserServices :=
  match parseCore line config with
  | PRes.ok pf =>
      let ag : Option Agent × ParserServices :=
        match pf.user_agent with
        | some ua =>
            let r := services.get_agent ua
            (some r.1, r.2)
        | none => (none, services)
      let af := ag.1.getD Agent.new
      let geoR := ag.2.get_geolocation pf.ip
      (PRes.ok
        { line := line, ip := pf.ip, identity := pf.identity, user := pf.user,
          timestamp := pf.tsMicros, method := pf.method, path := pf.path,
          extension := pf.extension, query := pf.query,
          parsed_query := pf.parsed_query, http_version := pf.http_version,
          status_code := pf.status_code, size := pf.size,
          referer := pf.referer, referer_origin := pf.referer_origin,
          referer_path := pf.referer_path, referer_query := pf.referer_query,
          referer_parsed_query := pf.referer_parsed_query,
          user_agent := pf.user_agent,
          browser := af.browser, browser_major := af.browser_major,
          browser_minor := af.browser_minor, browser_patch := af.browser_patch,
          browser_patch_minor := af.browser_patch_minor,
          os := af.os, os_major := af.os_major, os_minor := af.os_minor,
          os_patch := af.os_patch, os_patch_minor := af.os_patch_minor,
          device := af.device, brand := af.brand, model := af.model,
          country := geoR.1.country, continent := geoR.1.continent,
          asn := geoR.1.asn, as_name := geoR.1.as_name,
          as_domain := geoR.1.as_domain },
       geoR.2)
  | PRes.err r => (PRes.err r, services)
  | PRes.filtered => (PRes.filtered, services)
  | PRes.panic => (PRes.panic, services)

/-! Concrete instances used by witnesses and counterexamples. -/

/-- A decomposition service returning an all-absent agent for every string. -/
def decConst : Str → Agent := fun _ => Agent.new

/-- A geolocation service whose every lookup misses. -/
def geoNone : Str → Option IpInfo := fun _ => none

/-- Fresh services over the two constant collaborators. -/
def svcEx : ParserServices := ParserServices.init decConst geoNone

/-- The parsed origin `https://example.com`. -/
def originEx : UrlM :=
  { scheme := "https".data, host := some "example.com".data, port := none,
    path := ['/'], query := none, fragment := none }

/-- Configuration with origin `https://example.com` and watermark 0. -/
def cfgEx : ParseConfig := { timestamp := 0, origin := originEx }

/-- Configuration with origin `https://good.example` and watermark 0. -/
def cfgGood : ParseConfig :=
  { timestamp := 0,
    origin := { scheme := "https".data, host := some "good.example".data,
                port := none, path := ['/'], query := none, fragment := none } }

/-- Configuration with origin `https://example.com` and a watermark in the
year 2100, far above the example lines' timestamps. -/
def cfgOld : ParseConfig := { timestamp := 4102444800000000, origin := originEx }

/-- The spec's worked example line. -/
def line3 : Str :=
  "127.0.0.1 - - [10/Oct/2023:13:55:36 +0000] \"GET /a//b.html?x=1 HTTP/1.1\" 200 512 \"-\" \"Mozlila/5.0\"".data

/-- A well-formed line whose request path is an absolute URL on a foreign
host. -/
def lineEvil : Str :=
  "127.0.0.1 - - [10/Oct/2023:13:55:36 +0000] \"GET http://evil.example HTTP/1.1\" 200 512 \"-\" \"UA\"".data

/-- A line that is grammatically complete with a valid, old timestamp but
an invalid IP field. -/
def lineZzz : Str :=
  "zzz - - [10/Oct/2023:13:55:36 +0000] \"GET / HTTP/1.1\" 200 512 \"-\" \"UA\"".data

/-- A truncated line: after the user field ends at offset 11, the datetime
step calls `find(13, ...)` on this 12-character line and `line[13..]`
panics. -/
def linePanic : Str := "1.2.3.4 - - ".data

/-- The spec-relevant projection of a parse outcome: method, path,
extension, query, parsed query, version, status, size, the four derived
referer fields together with the referer URL, and the device family. -/
def parseFields (r : PRes LogEntry) :
    Option (HttpMethod × Str × Option Str × Option Str × Option HMap ×
      HttpVersion × Nat × Nat × Option UrlM × Option OriginM × Option Str ×
      Option Str × Option HMap × Option Str) :=
  (presOk r).map fun e =>
    (e.method, e.path, e.extension, e.query, e.parsed_query, e.http_version,
     e.status_code, e.size, e.referer, e.referer_origin, e.referer_path,
     e.referer_query, e.referer_parsed_query, e.device)

/-! Relating `LogEntry::parse` to its scanning phase. -/

/-- The outcome of `LogEntry::parse` is an error with a given reason
exactly when the scanning phase is: enrichment never fails. -/
theorem parse_err_iff (line : Str) (svc : ParserServices) (cfg : ParseConfig)
    (r : Str) :
    (LogEntry.parse line svc cfg).1 = PRes.err r ↔ parseCore line cfg = PRes.err r := by
  unfold LogEntry.parse
  cases h : parseCore line cfg <;> simp

/-- The outcome of `LogEntry::parse` is filtered exactly when the scanning
phase is. -/
theorem parse_filtered_iff (line : Str) (svc : ParserServices) (cfg : ParseConfig) :
    (LogEntry.parse line svc cfg).1 = PRes.filtered ↔
      parseCore line cfg = PRes.filtered := by
  unfold LogEntry.parse
  cases h : parseCore line cfg <;> simp

/-! The claims. -/

/-- Claim C1: the spec asserts that `LogEntry::parse` always returns a
`LogEntry` or a `LogError` and in particular never panics from the Field
Cursor slicing `line[start..]` past the end of a short line. The code
violates this: on the truncated line `"1.2.3.4 - - "` the datetime step
slices at offset 13 of a 12-byte line and panics. -/
theorem c1_parse_panics_on_truncated_line :
    (LogEntry.parse linePanic svcEx cfgEx).1 = PRes.panic := by decide

/-- Claim C3 counterexample: on the spec's example line the parsed path is
not `/a/b.html` — the doubled slash inside the path is preserved, because
the collapsing loop only rewrites a leading `//`. -/
theorem c3_counterexample :
    (presOk (LogEntry.parse line3 svcEx cfgEx).1).map (fun e => e.path) ≠
      some "/a/b.html".data := by decide

/-- Claim C3 (amended): the example line with origin `https://example.com`
and watermark 0 parses to method GET, path `/a//b.html` (the internal
doubled slash is preserved; only a leading run of doubled slashes is
collapsed), extension `html`, query `x=1`, parsed query mapping `x` to
`1`, HTTP/1.1, status 200, size 512, all referer fields absent, and device
`Spider`. -/
theorem c3_example_parse :
    parseFields (LogEntry.parse line3 svcEx cfgEx).1 =
      some (HttpMethod.GET, "/a//b.html".data, some "html".data,
        some "x=1".data, some [("x".data, "1".data)], HttpVersion.HTTP11,
        200, 512, none, none, none, none, none, some "Spider".data) := rfl

/-- Claim C9: `HttpMethod::new`/`to_string` and `HttpVersion::new`/
`to_string` are exact inverses on the nine method and four version
literals, and each constructor rejects every string outside its set. -/
theorem c9_enum_roundtrip :
    (∀ m : HttpMethod, HttpMethod.new (HttpMethod.toString m) = some m) ∧
    (∀ s : Str, (HttpMethod.new s).map HttpMethod.toString =
      if s ∈ methodLits then some s else none) ∧
    (∀ v : HttpVersion, HttpVersion.new (HttpVersion.toString v) = some v) ∧
    (∀ s : Str, (HttpVersion.new s).map HttpVersion.toString =
      if s ∈ versionLits then some s else none) := by
  refine ⟨fun m => by cases m <;> decide, fun s => ?_, fun v => by cases v <;> decide,
    fun s => ?_⟩
  · unfold HttpMethod.new
    split_ifs with h1 h2 h3 h4 h5 h6 h7 h8 h9 <;>
      simp_all [methodLits, HttpMethod.toString]
  · unfold HttpVersion.new
    split_ifs with h1 h2 h3 h4 <;>
      simp_all [versionLits, HttpVersion.toString]

/-- Claim C10: `ParseConfig::new` unwraps `Url::parse(origin)`, so it
panics (modelled as `none`) exactly when the origin string is not a
parseable absolute URL, and otherwise returns the configuration holding
the parsed origin. -/
theorem c10_config_new_requires_url_origin :
    (∀ (t : Int) (o : Str), ParseConfig.new t o = none ↔ urlParse o = none) ∧
    ParseConfig.new 0 "https://example.com".data = some cfgEx ∧
    ParseConfig.new 0 "not a url".data = none := by
  refine ⟨fun t o => ?_, by decide, by decide⟩
  unfold ParseConfig.new
  cases urlParse o <;> simp

/-! Cache invariants: every value held by the enrichment caches of a
reachable services state is the one its service computes, and the ghost
invocation log holds each cached key exactly once. -/

/-- Number of occurrences of a string in the invocation log. -/
def countS (s : Str) : List Str → Nat
  | [] => 0
  | x :: xs => (if x = s then 1 else 0) + countS s xs

theorem countS_append (s : Str) (a b : List Str) :
    countS s (a ++ b) = countS s a + countS s b := by
  induction a with
  | nil => simp [countS]
  | cons x xs ih => simp [countS, ih]; omega

theorem lookupA_append {α : Type} (k : Str) (l : List (Str × α)) (p : Str × α) :
    lookupA k (l ++ [p]) =
      match lookupA k l with
      | some v => some v
      | none => if p.1 = k then some p.2 else none := by
  induction l with
  | nil => simp [lookupA]
  | cons q rest ih =>
      by_cases h : q.1 = k <;> simp [lookupA, h, ih]

/-- The invariant of reachable services states. -/
def CacheInv (svc : ParserServices) : Prop :=
  (∀ s a, lookupA s svc.agents = some a → a = applyOverride s (svc.dec s)) ∧
  (∀ s, countS s svc.calls = if (lookupA s svc.agents).isSome then 1 else 0) ∧
  (∀ k g, lookupA k svc.geolocations = some g → g = geoCompute svc.geoLookup k)

theorem CacheInv_init (dec : Str → Agent) (geo : Str → Option IpInfo) :
    CacheInv (ParserServices.init dec geo) := by
  refine ⟨fun s a h => ?_, fun s => ?_, fun k g h => ?_⟩ <;>
    simp [ParserServices.init, lookupA, countS] at *

theorem get_agent_fst (svc : ParserServices) (ua : Str) (h : CacheInv svc) :
    (svc.get_agent ua).1 = applyOverride ua (svc.dec ua) := by
  unfold ParserServices.get_agent
  cases hl : lookupA ua svc.agents with
  | none => rfl
  | some a => exact h.1 ua a hl

theorem get_agent_dec (svc : ParserServices) (ua : Str) :
    ((svc.get_agent ua).2).dec = svc.dec := by
  unfold ParserServices.get_agent
  cases hl : lookupA ua svc.agents <;> rfl

theorem get_agent_geoLookup (svc : ParserServices) (ua : Str) :
    ((svc.get_agent ua).2).geoLookup = svc.geoLookup := by
  unfold ParserServices.get_agent
  cases hl : lookupA ua svc.agents <;> rfl

theorem get_agent_geolocations (svc : ParserServices) (ua : Str) :
    ((svc.get_agent ua).2).geolocations = svc.geolocations := by
  unfold ParserServices.get_agent
  cases hl : lookupA ua svc.agents <;> rfl

theorem get_geolocation_fst (svc : ParserServices) (ip : Str) (h : CacheInv svc) :
    (svc.get_geolocation ip).1 = geoCompute svc.geoLookup ip := by
  unfold ParserServices.get_geolocation
  cases hl : lookupA ip svc.geolocations with
  | none => rfl
  | some g => exact h.2.2 ip g hl

theorem get_geolocation_agents (svc : ParserServices) (ip : Str) :
    ((svc.get_geolocation ip).2).agents = svc.agents := by
  unfold ParserServices.get_geolocation
  cases hl : lookupA ip svc.geolocations <;> rfl

theorem get_geolocation_calls (svc : ParserServices) (ip : Str) :
    ((svc.get_geolocation ip).2).calls = svc.calls := by
  unfold ParserServices.get_geolocation
  cases hl : lookupA ip svc.geolocations <;> rfl

theorem get_geolocation_dec (svc : ParserServices) (ip : Str) :
    ((svc.get_geolocation ip).2).dec = svc.dec := by
  unfold ParserServices.get_geolocation
  cases hl : lookupA ip svc.geolocations <;> rfl

theorem get_geolocation_geoLookup (svc : ParserServices) (ip : Str) :
    ((svc.get_geolocation ip).2).geoLookup = svc.geoLookup := by
  unfold ParserServices.get_geolocation
  cases hl : lookupA ip svc.geolocations <;> rfl

theorem CacheInv_get_agent (svc : ParserServices) (ua : Str) (h : CacheInv svc) :
    CacheInv (svc.get_agent ua).2 := by
  unfold ParserServices.get_agent
  cases hl : lookupA ua svc.agents with
  | some a => exact h
  | none =>
      refine ⟨fun s a ha => ?_, fun s => ?_, h.2.2⟩
      · rw [lookupA_append] at ha
        cases hs : lookupA s svc.agents with
        | some b => rw [hs] at ha; exact (h.1 s a (by rw [hs, ← ha]))
        | none =>
            rw [hs] at ha
            by_cases he : ua = s
            · subst he
              simp at ha
              simp [← ha]
            · simp [he] at ha
      · rw [lookupA_append, countS_append]
        cases hs : lookupA s svc.agents with
        | some b =>
            have hne : ¬ ua = s := by
              intro he
              subst he
              rw [hl] at hs
              cases hs
            simp [h.2.1 s, hs, countS, hne]
        | none =>
            have := h.2.1 s
            rw [hs] at this
            simp at this
            by_cases he : ua = s <;> simp [this, countS, he]

theorem CacheInv_get_geolocation (svc : ParserServices) (ip : Str) (h : CacheInv svc) :
    CacheInv (svc.get_geolocation ip).2 := by
  unfold ParserServices.get_geolocation
  cases hl : lookupA ip svc.geolocations with
  | some g => exact h
  | none =>
      refine ⟨h.1, h.2.1, fun k g hk => ?_⟩
      rw [lookupA_append] at hk
      cases hs : lookupA k svc.geolocations with
      | some b => rw [hs] at hk; exact h.2.2 k g (by rw [hs, ← hk])
      | none =>
          rw [hs] at hk
          by_cases he : ip = k
          · subst he; simp at hk; simp [← hk]
          · simp [he] at hk

theorem CacheInv_runReqs (l : List Req) (svc : ParserServices) (h : CacheInv svc) :
    CacheInv (runReqs svc l) := by
  induction l generalizing svc with
  | nil => exact h
  | cons r rest ih =>
      cases r with
      | agentReq ua => exact ih _ (CacheInv_get_agent svc ua h)
      | geoReq ip => exact ih _ (CacheInv_get_geolocation svc ip h)

theorem runReqs_dec (l : List Req) (svc : ParserServices) :
    (runReqs svc l).dec = svc.dec := by
  induction l generalizing svc with
  | nil => rfl
  | cons r rest ih =>
      cases r with
      | agentReq ua => rw [runReqs, ih, get_agent_dec]
      | geoReq ip => rw [runReqs, ih, get_geolocation_dec]

theorem runReqs_geoLookup (l : List Req) (svc : ParserServices) :
    (runReqs svc l).geoLookup = svc.geoLookup := by
  induction l generalizing svc with
  | nil => rfl
  | cons r rest ih =>
      cases r with
      | agentReq ua => rw [runReqs, ih, get_agent_geoLookup]
      | geoReq ip => rw [runReqs, ih, get_geolocation_geoLookup]

/-- After a run of agent requests, the agent cache holds exactly the
requested strings (plus whatever the start state held). -/
theorem runReqs_agent_domain (l : List Str) (svc : ParserServices) (s : Str) :
    (lookupA s (runReqs svc (l.map Req.agentReq)).agents).isSome ↔
      s ∈ l ∨ (lookupA s svc.agents).isSome := by
  induction l generalizing svc with
  | nil => simp [runReqs]
  | cons i rest ih =>
      simp only [List.map_cons, runReqs, ih]
      have hstep : (lookupA s ((svc.get_agent i).2).agents).isSome ↔
          (s = i ∨ (lookupA s svc.agents).isSome) := by
        unfold ParserServices.get_agent
        cases hl : lookupA i svc.agents with
        | some a =>
            simp only []
            constructor
            · exact fun hh => Or.inr hh
            · rintro (rfl | hh)
              · simp [hl]
              · exact hh
        | none =>
            simp only [lookupA_append]
            cases hs : lookupA s svc.agents with
            | some b => simp
            | none =>
                by_cases he : i = s
                · subst he
                  simp
                · have he2 : ¬ s = i := fun hh => he hh.symm
                  simp [he, he2]
      rw [hstep]
      simp [List.mem_cons]
      tauto

/-- Claim C6 counterexample: the two distinct raw strings `Mozlila` and
`X`, which the constant decomposition service maps identically, receive
different `Agent`s from `get_agent` in one run — the Mozlila override is
applied after the service returns, so identical service results do not
guarantee value-equal agents. -/
theorem c6_counterexample :
    decConst "Mozlila".data = decConst "X".data ∧
    "Mozlila".data ≠ "X".data ∧
    (svcEx.get_agent "Mozlila".data).1 ≠
      (((svcEx.get_agent "Mozlila".data).2).get_agent "X".data).1 := by
  refine ⟨rfl, by decide, by decide⟩

/-- Claim C6 (amended): for two raw user-agent strings on which the
decomposition service returns identical results AND which agree on
containing the `Mozlila` signature, `get_agent` returns value-equal
`Agent`s at any reachable state; and over any sequence of `get_agent`
calls in a run the decomposition service is invoked exactly once per
distinct raw string. -/
theorem c6_cache_value_equal_and_once (dec : Str → Agent) (geo : Str → Option IpInfo)
    (s1 s2 : Str) (prior : List Req)
    (hdec : dec s1 = dec s2)
    (hmoz : containsSub s1 "Mozlila".data = containsSub s2 "Mozlila".data) :
    ((runReqs (ParserServices.init dec geo) prior).get_agent s1).1 =
      ((runReqs (ParserServices.init dec geo) prior).get_agent s2).1 ∧
    (∀ (reqs : List Str) (s : Str),
      countS s (runReqs (ParserServices.init dec geo) (reqs.map Req.agentReq)).calls =
        if s ∈ reqs then 1 else 0) := by
  constructor
  · have hinv := CacheInv_runReqs prior _ (CacheInv_init dec geo)
    rw [get_agent_fst _ _ hinv, get_agent_fst _ _ hinv, runReqs_dec]
    simp only [ParserServices.init]
    unfold applyOverride
    rw [hdec, ← hmoz]
  · intro reqs s
    have hinv := CacheInv_runReqs (reqs.map Req.agentReq) _ (CacheInv_init dec geo)
    rw [hinv.2.1 s]
    have hdom := runReqs_agent_domain reqs (ParserServices.init dec geo) s
    rw [show lookupA s (ParserServices.init dec geo).agents = none from rfl] at hdom
    simp only [Option.isSome_none, Bool.false_eq_true, or_false] at hdom
    by_cases hs : s ∈ reqs
    · rw [if_pos (hdom.2 hs), if_pos hs]
    · rw [if_neg (fun h => hs (hdom.1 h)), if_neg hs]

/-- Claim C6 witness: with the constant decomposition service, the strings
`Mozlila/5.0` and `Mozlila/6.0` (identical service results, both carrying
the signature) receive value-equal `Agent`s from the fresh state. -/
theorem c6_cache_value_equal_and_once_witness :
    ((runReqs (ParserServices.init decConst geoNone) []).get_agent "Mozlila/5.0".data).1 =
      ((runReqs (ParserServices.init decConst geoNone) []).get_agent "Mozlila/6.0".data).1 :=
  (c6_cache_value_equal_and_once decConst geoNone "Mozlila/5.0".data
    "Mozlila/6.0".data [] rfl (by decide)).1

/-- Claim C7: at any reachable services state, a raw user-agent string
containing `Mozlila` receives an `Agent` whose device is `Spider`,
whatever the decomposition service reported. -/
theorem c7_mozlila_forces_spider (dec : Str → Agent) (geo : Str → Option IpInfo)
    (prior : List Req) (ua : Str)
    (hmoz : containsSub ua "Mozlila".data = true) :
    (((runReqs (ParserServices.init dec geo) prior).get_agent ua).1).device =
      some "Spider".data := by
  have hinv := CacheInv_runReqs prior _ (CacheInv_init dec geo)
  rw [get_agent_fst _ _ hinv]
  unfold applyOverride
  rw [hmoz]
  rfl

/-- Claim C7 witness. -/
theorem c7_mozlila_forces_spider_witness :
    (((runReqs (ParserServices.init decConst geoNone) []).get_agent
        "Mozlila/5.0".data).1).device = some "Spider".data :=
  c7_mozlila_forces_spider decConst geoNone [] "Mozlila/5.0".data (by decide)

/-- Claim C8: `get_geolocation` is total (its type admits no error
outcome), and at any reachable services state an IP whose underlying
lookup fails — a lookup miss or a record the deserialiser rejects — yields
a `GeoLocation` with all five fields absent. -/
theorem c8_geolocation_miss_all_absent (dec : Str → Agent)
    (geo : Str → Option IpInfo) (prior : List Req) (ip : Str)
    (hmiss : geo ip = none) :
    ((runReqs (ParserServices.init dec geo) prior).get_geolocation ip).1 =
      GeoLocation.new := by
  have hinv := CacheInv_runReqs prior _ (CacheInv_init dec geo)
  rw [get_geolocation_fst _ _ hinv, runReqs_geoLookup]
  simp only [ParserServices.init]
  unfold geoCompute
  rw [hmiss]

/-- Claim C8 witness. -/
theorem c8_geolocation_miss_all_absent_witness :
    ((runReqs (ParserServices.init decConst geoNone) []).get_geolocation
        "1.2.3.4".data).1 = GeoLocation.new :=
  c8_geolocation_miss_all_absent decConst geoNone [] "1.2.3.4".data rfl

/-- Claim C2 counterexample: `lineZzz` carries a grammatically complete
timestamp field that parses to a microsecond value at or below `cfgOld`'s
watermark, yet `LogEntry::parse` reports the structural error
`Invalid IP` — not a filtered outcome — because the IP field is validated
before the watermark is consulted. -/
theorem c2_counterexample :
    find 0 lineZzz (Patt.ch ' ') = FindRes.found "zzz".data 3 ∧
    find 4 lineZzz (Patt.ch ' ') = FindRes.found "-".data 5 ∧
    find 6 lineZzz (Patt.ch ' ') = FindRes.found "-".data 7 ∧
    find 9 lineZzz (Patt.ch ']') =
      FindRes.found "10/Oct/2023:13:55:36 +0000".data 35 ∧
    parseDtMicros "10/Oct/2023:13:55:36 +0000".data = some 1696946136000000 ∧
    (1696946136000000 : Int) ≤ cfgOld.timestamp ∧
    (LogEntry.parse lineZzz svcEx cfgOld).1 = PRes.err "Invalid IP".data :=
  ⟨by decide, by decide, by decide, by decide, by decide, by decide, by decide⟩

/-- Claim C2 (amended): for any line that reaches the watermark check —
the first three delimiters are found, the IP field is a valid address, and
the timestamp field parses — a timestamp at or below the watermark makes
`LogEntry::parse` return the filtered outcome, regardless of everything
after the timestamp field. -/
theorem c2_watermark_filters (line : Str) (svc : ParserServices) (cfg : ParseConfig)
    (s1 s2 s3 s4 : Str) (n1 n2 n3 n4 : Nat) (ts : Int)
    (h1 : find 0 line (Patt.ch ' ') = FindRes.found s1 n1)
    (hip : isIpAddr s1 = true)
    (h2 : find (n1 + 1) line (Patt.ch ' ') = FindRes.found s2 n2)
    (h3 : find (n2 + 1) line (Patt.ch ' ') = FindRes.found s3 n3)
    (h4 : find (n3 + 2) line (Patt.ch ']') = FindRes.found s4 n4)
    (hts : parseDtMicros s4 = some ts)
    (hw : ts ≤ cfg.timestamp) :
    (LogEntry.parse line svc cfg).1 = PRes.filtered := by
  rw [parse_filtered_iff]
  simp only [parseCore, h1, h2, h3, h4, toRes, pbind, hip, toResO, hts, hw,
    if_true, ite_true]

/-- Claim C2 witness: the worked example line against the year-2100
watermark is filtered. -/
theorem c2_watermark_filters_witness :
    (LogEntry.parse line3 svcEx cfgOld).1 = PRes.filtered :=
  c2_watermark_filters line3 svcEx cfgOld "127.0.0.1".data "-".data "-".data
    "10/Oct/2023:13:55:36 +0000".data 9 11 13 41 1696946136000000
    (by decide) (by decide) (by decide) (by decide) (by decide) (by decide)
    (by decide)

/-- A chained Field Cursor step cannot produce an error with a reason
other than its own, so long as its continuation cannot. -/
theorem pbind_find_ne {α : Type} (f : FindRes) (r : Str) (k : Str × Nat → PRes α)
    (bad : Str) (hr : ¬ r = bad) (hk : ∀ x, ¬ k x = PRes.err bad) :
    ¬ pbind (toRes f r) k = PRes.err bad := by
  cases f with
  | panic => simp [toRes, pbind]
  | notFound => simp [toRes, pbind, hr]
  | found s p => simpa [toRes, pbind] using hk (s, p)

/-- Likewise for a chained validation step. -/
theorem pbind_opt_ne {α β : Type} (o : Option α) (r : Str) (k : α → PRes β)
    (bad : Str) (hr : ¬ r = bad) (hk : ∀ x, ¬ k x = PRes.err bad) :
    ¬ pbind (toResO o r) k = PRes.err bad := by
  cases o with
  | none => simp [toResO, pbind, hr]
  | some a => simpa [toResO, pbind] using hk a

/-- Claim C4: for any line that reaches path resolution, if the resolved
URL's host differs from the configured origin's host, `LogEntry::parse`
fails with exactly `Path has a different host`; and if the hosts agree —
whatever the scheme or port of the resolved URL — that error cannot
arise. The comparison inspects only `host_str`. -/
theorem c4_foreign_host (line : Str) (svc : ParserServices) (cfg : ParseConfig)
    (s1 s2 s3 s4 req ms fp : Str) (n1 n2 n3 n4 nr n5 n6 : Nat) (ts : Int)
    (m : HttpMethod) (u : UrlM)
    (h1 : find 0 line (Patt.ch ' ') = FindRes.found s1 n1)
    (hip : isIpAddr s1 = true)
    (h2 : find (n1 + 1) line (Patt.ch ' ') = FindRes.found s2 n2)
    (h3 : find (n2 + 1) line (Patt.ch ' ') = FindRes.found s3 n3)
    (h4 : find (n3 + 2) line (Patt.ch ']') = FindRes.found s4 n4)
    (hts : parseDtMicros s4 = some ts)
    (hw : ¬ ts ≤ cfg.timestamp)
    (h5 : find (n4 + 3) line (Patt.ch '"') = FindRes.found req nr)
    (hreq : ¬ req.length = 0)
    (h6 : find (n4 + 3) line (Patt.ch ' ') = FindRes.found ms n5)
    (hm : HttpMethod.new ms = some m)
    (h7 : find (n5 + 1) line (Patt.str " HTTP/".data) = FindRes.found fp n6)
    (hj : urlJoin cfg.origin (collapseSlashes fp) = some u) :
    (u.host ≠ cfg.origin.host →
      (LogEntry.parse line svc cfg).1 = PRes.err "Path has a different host".data) ∧
    (u.host = cfg.origin.host →
      ¬ (LogEntry.parse line svc cfg).1 = PRes.err "Path has a different host".data) := by
  constructor
  · intro hne
    rw [parse_err_iff]
    simp only [parseCore, h1, h2, h3, h4, h5, h6, h7, toRes, toResO, pbind,
      hip, hts, hw, hreq, hm, hj, hne, ne_eq, not_false_iff, if_true,
      ite_true, if_false, ite_false]
  · intro heq hcontra
    rw [parse_err_iff] at hcontra
    simp only [parseCore, h1, h2, h3, h4, h5, h6, h7, toRes, toResO, pbind,
      hip, hts, hw, hreq, hm, hj, heq, ne_eq, not_true_eq_false, if_true,
      ite_true, if_false, ite_false] at hcontra
    revert hcontra
    refine pbind_find_ne _ _ _ _ (by decide) fun vn => ?_
    refine pbind_opt_ne _ _ _ _ (by decide) fun hv => ?_
    refine pbind_find_ne _ _ _ _ (by decide) fun stn => ?_
    refine pbind_opt_ne _ _ _ _ (by decide) fun st => ?_
    refine pbind_find_ne _ _ _ _ (by decide) fun szn => ?_
    refine pbind_opt_ne _ _ _ _ (by decide) fun sz => ?_
    refine pbind_find_ne _ _ _ _ (by decide) fun refn => ?_
    refine pbind_find_ne _ _ _ _ (by decide) fun uan => ?_
    simp

/-- Claim C4 witness: the request line `GET http://evil.example HTTP/1.1`
against origin `https://good.example` is rejected with
`Path has a different host`. -/
theorem c4_foreign_host_witness :
    (LogEntry.parse lineEvil svcEx cfgGood).1 =
      PRes.err "Path has a different host".data :=
  (c4_foreign_host lineEvil svcEx cfgGood "127.0.0.1".data "-".data "-".data
    "10/Oct/2023:13:55:36 +0000".data "GET http://evil.example HTTP/1.1".data
    "GET".data "http://evil.example".data 9 11 13 41 76 47 67 1696946136000000
    HttpMethod.GET
    { scheme := "http".data, host := some "evil.example".data, port := none,
      path := ['/'], query := none, fragment := none }
    (by decide) (by decide) (by decide) (by decide) (by decide) (by decide)
    (by decide) (by decide) (by decide) (by decide) (by decide) (by decide)
    (by decide)).1 (by decide)

/-- Claim C5: for any line that is grammatically well-formed and valid in
every other field (all delimiters found, the IP, timestamp, method, path,
version, status and size fields valid, the path on the origin's host), a
referer substring that is not a parseable absolute URL leaves the parse
successful with all five referer-derived fields absent. -/
theorem c5_bad_referer_nonfatal (line : Str) (svc : ParserServices) (cfg : ParseConfig)
    (s1 s2 s3 s4 req ms fp vs sts szs rfs uas : Str)
    (n1 n2 n3 n4 nr n5 n6 n7 n8 n9 n10 nu : Nat) (ts : Int)
    (m : HttpMethod) (u : UrlM) (v : HttpVersion) (st sz : Nat)
    (h1 : find 0 line (Patt.ch ' ') = FindRes.found s1 n1)
    (hip : isIpAddr s1 = true)
    (h2 : find (n1 + 1) line (Patt.ch ' ') = FindRes.found s2 n2)
    (h3 : find (n2 + 1) line (Patt.ch ' ') = FindRes.found s3 n3)
    (h4 : find (n3 + 2) line (Patt.ch ']') = FindRes.found s4 n4)
    (hts : parseDtMicros s4 = some ts)
    (hw : ¬ ts ≤ cfg.timestamp)
    (h5 : find (n4 + 3) line (Patt.ch '"') = FindRes.found req nr)
    (hreq : ¬ req.length = 0)
    (h6 : find (n4 + 3) line (Patt.ch ' ') = FindRes.found ms n5)
    (hm : HttpMethod.new ms = some m)
    (h7 : find (n5 + 1) line (Patt.str " HTTP/".data) = FindRes.found fp n6)
    (hj : urlJoin cfg.origin (collapseSlashes fp) = some u)
    (hh : u.host = cfg.origin.host)
    (h8 : find (n6 + 1) line (Patt.ch '"') = FindRes.found vs n7)
    (hv : HttpVersion.new vs = some v)
    (h9 : find (n7 + 2) line (Patt.ch ' ') = FindRes.found sts n8)
    (hst : parseRustUInt 65535 sts = some st)
    (h10 : find (n8 + 1) line (Patt.ch ' ') = FindRes.found szs n9)
    (hsz : parseRustUInt usizeMax szs = some sz)
    (h11 : find (n9 + 2) line (Patt.ch '"') = FindRes.found rfs n10)
    (href : urlParse rfs = none)
    (h12 : find (n10 + 3) line (Patt.ch '"') = FindRes.found uas nu) :
    ∃ e : LogEntry, (LogEntry.parse line svc cfg).1 = PRes.ok e ∧
      e.referer = none ∧ e.referer_origin = none ∧ e.referer_path = none ∧
      e.referer_query = none ∧ e.referer_parsed_query = none := by
  simp only [LogEntry.parse, parseCore, h1, h2, h3, h4, h5, h6, h7, h8, h9,
    h10, h11, h12, toRes, toResO, pbind, hip, hts, hw, hreq, hm, hj, hh, hv,
    hst, hsz, href, ne_eq, not_true_eq_false, if_true, ite_true, if_false,
    ite_false]
  by_cases hua : uas = []
  · simp only [hua, ite_true, if_true]
    exact ⟨_, rfl, rfl, rfl, rfl, rfl, rfl⟩
  · simp only [hua, ite_false, if_false]
    exact ⟨_, rfl, rfl, rfl, rfl, rfl, rfl⟩

/-- Claim C5 witness: the worked example line has the unparsable referer
`-` and parses successfully with every referer-derived field absent. -/
theorem c5_bad_referer_nonfatal_witness :
    ∃ e : LogEntry, (LogEntry.parse line3 svcEx cfgEx).1 = PRes.ok e ∧
      e.referer = none ∧ e.referer_origin = none ∧ e.referer_path = none ∧
      e.referer_query = none ∧ e.referer_parsed_query = none :=
  c5_bad_referer_nonfatal line3 svcEx cfgEx "127.0.0.1".data "-".data "-".data
    "10/Oct/2023:13:55:36 +0000".data "GET /a//b.html?x=1 HTTP/1.1".data
    "GET".data "/a//b.html?x=1".data "HTTP/1.1".data "200".data "512".data
    "-".data "Mozlila/5.0".data
    9 11 13 41 71 47 62 71 76 80 83 97 1696946136000000
    HttpMethod.GET
    { scheme := "https".data, host := some "example.com".data, port := none,
      path := "/a//b.html".data, query := some "x=1".data, fragment := none }
    HttpVersion.HTTP11 200 512
    (by decide) (by decide) (by decide) (by decide) (by decide) (by decide)
    (by decide) (by decide) (by decide) (by decide) (by decide) (by decide)
    (by decide) (by decide) (by decide) (by decide) (by decide) (by decide)
    (by decide) (by decide) (by decide) (by decide) (by decide)

end Log2Duck
